import Mathlib

/-!
Shallow embedding of the django-polls application.

The embedding covers `polls/views.py` (the four request handlers `index`,
`detail`, `results`, `vote`) together with the two persisted entities
`Question` and `Choice` of the data model.  Timestamps are integers
(seconds), the database is a pair of lists, and each handler is a pure
function from a database state and a current time to a response (and, for
`vote`, an updated database state).
-/

/-- A `Question` row: identifier (primary key), `question_text`, and
`pub_date`, the publication timestamp (modelled as an integer number of
seconds; only its ordering matters). -/
structure Question where
  id : Nat
  question_text : String
  pub_date : Int
deriving DecidableEq, Repr

/-- A `Choice` row: identifier (primary key), the foreign key
`question_id` to its owning question, `choice_text`, and the running
`votes` count (a non-negative integer, default 0). -/
structure Choice where
  id : Nat
  question_id : Nat
  choice_text : String
  votes : Nat
deriving DecidableEq, Repr

/-- The persisted state: the questions table and the choices table. -/
structure DB where
  questions : List Question
  choices : List Choice
deriving DecidableEq, Repr

/-- The responses the handlers can produce: `Http404` (from
`get_object_or_404` or an explicit `raise Http404`), a rendered template
with a question in the context and an optional `error_message`, a
redirect to the results page of a question (`HttpResponseRedirect` of
`reverse "results"`), or an unhandled exception propagating as a generic
server error. -/
inductive Response where
  | notFound
  | render (template : String) (question : Question) (error_message : Option String)
  | redirectToResults (question_id : Nat)
  | serverError
deriving DecidableEq, Repr

/-- The HTTP status code each response carries. -/
def status : Response → Nat
  | .notFound => 404
  | .render _ _ _ => 200
  | .redirectToResults _ => 302
  | .serverError => 500

/-- `get_object_or_404(Question, pk=question_id)`: the row of the
questions table with the given primary key, if any. -/
def getQuestion (db : DB) (question_id : Nat) : Option Question :=
  db.questions.find? (fun q => q.id == question_id)

/-- Insert a question into a list kept in descending `pub_date` order
(the comparison step of `order_by("-pub_date")`). -/
def insertByDateDesc (q : Question) : List Question → List Question
  | [] => [q]
  | x :: xs =>
    if x.pub_date ≤ q.pub_date then q :: x :: xs else x :: insertByDateDesc q xs

/-- Sort a list of questions by `pub_date` descending
(`order_by("-pub_date")`). -/
def sortByDateDesc : List Question → List Question
  | [] => []
  | x :: xs => insertByDateDesc x (sortByDateDesc xs)

/-- The `index` view:
`Question.objects.filter(pub_date__lte=timezone.now()).order_by("-pub_date")[:5]`,
returned as the `latest_question_list` context value. -/
def index (db : DB) (now : Int) : List Question :=
  (sortByDateDesc (db.questions.filter (fun q => q.pub_date ≤ now))).take 5

/-- The `detail` view: fetch the question by primary key (404 if absent),
404 if its `pub_date` is in the future, otherwise render
`polls/detail.html` with the question. -/
def detail (db : DB) (now : Int) (question_id : Nat) : Response :=
  match getQuestion db question_id with
  | none => .notFound
  | some question =>
    if question.pub_date > now then .notFound
    else .render "polls/detail.html" question none

/-- The `results` view: same lookup and visibility rule as `detail`,
rendering `polls/results.html`. -/
def results (db : DB) (now : Int) (question_id : Nat) : Response :=
  match getQuestion db question_id with
  | none => .notFound
  | some question =>
    if question.pub_date > now then .notFound
    else .render "polls/results.html" question none

/-- The coercion Django's integer primary-key field applies to the raw
form string `request.POST["choice"]` before querying (Python `int(...)`
restricted to the non-negative values a primary key can take): a
non-empty all-digit string parses, anything else raises `ValueError`. -/
def parseIntField (s : String) : Option Nat :=
  if s.data ≠ [] && s.data.all Char.isDigit then
    some (s.data.foldl (fun n c => 10 * n + (c.toNat - 48)) 0)
  else
    none

/-- `question.choice_set.get(pk=cid)`: the row of the choices table whose
foreign key is this question and whose primary key is `cid`, if any
(`Choice.DoesNotExist` otherwise). -/
def findChoice (db : DB) (question : Question) (cid : Nat) : Option Choice :=
  db.choices.find? (fun c => c.question_id == question.id && c.id == cid)

/-- `selected_choice.save()`: write the in-memory object back to the row
with its primary key. -/
def saveChoice (db : DB) (selected_choice : Choice) : DB :=
  { db with
    choices := db.choices.map
      (fun c => if c.id == selected_choice.id then selected_choice else c) }

/-- The literal error text rendered when the vote submission carries no
usable choice. -/
def noChoiceMessage : String := "You didn\x27t select a choice."

/-- The `vote` view.  `post_choice` is the `choice` form field of the
POST body (`none` when the field is absent, in which case
`request.POST["choice"]` raises `KeyError`).  Steps, as in the source:
fetch the question (404 if absent), 404 if future-dated; read and coerce
the form field (a missing field's `KeyError` and a non-resolving id's
`Choice.DoesNotExist` re-render the detail template with
`noChoiceMessage`, while a coercion `ValueError` is not caught and
propagates); on success increment the selected choice's votes in
application memory, save it, and redirect to the results page. -/
def vote (db : DB) (now : Int) (question_id : Nat) (post_choice : Option String) :
    Response × DB :=
  match getQuestion db question_id with
  | none => (.notFound, db)
  | some question =>
    if question.pub_date > now then (.notFound, db)
    else
      match post_choice with
      | none => (.render "polls/detail.html" question (some noChoiceMessage), db)
      | some s =>
        match parseIntField s with
        | none => (.serverError, db)
        | some cid =>
          match findChoice db question cid with
          | none => (.render "polls/detail.html" question (some noChoiceMessage), db)
          | some selected_choice =>
            (.redirectToResults question.id,
              saveChoice db { selected_choice with votes := selected_choice.votes + 1 })

/-- Modelled from the spec: `Question.was_published_recently` lives in
`polls/models.py`, which is not among the sources; the spec defines the
derived property as true iff `now − 1 day < pub_date ≤ now` (one day
being 86400 seconds).  The model tests in `polls/tests.py` agree with
this definition at every point they probe. -/
def was_published_recently (q : Question) (now : Int) : Bool :=
  now - 86400 < q.pub_date && q.pub_date ≤ now

lemma mem_insertByDateDesc {a q : Question} {l : List Question} :
    a ∈ insertByDateDesc q l ↔ a = q ∨ a ∈ l := by
  induction l with
  | nil => simp [insertByDateDesc]
  | cons x xs ih =>
    by_cases h : x.pub_date ≤ q.pub_date
    · simp [insertByDateDesc, h]
    · simp [insertByDateDesc, h, ih]
      tauto

lemma pairwise_insertByDateDesc {q : Question} {l : List Question}
    (h : l.Pairwise (fun a b => b.pub_date ≤ a.pub_date)) :
    (insertByDateDesc q l).Pairwise (fun a b => b.pub_date ≤ a.pub_date) := by
  induction l with
  | nil => simp [insertByDateDesc]
  | cons x xs ih =>
    rcases List.pairwise_cons.mp h with ⟨hx, hxs⟩
    by_cases hle : x.pub_date ≤ q.pub_date
    · simp only [insertByDateDesc, if_pos hle]
      refine List.pairwise_cons.mpr ⟨?_, h⟩
      intro b hb
      rcases List.mem_cons.mp hb with rfl | hb
      · exact hle
      · exact le_trans (hx b hb) hle
    · simp only [insertByDateDesc, if_neg hle]
      refine List.pairwise_cons.mpr ⟨?_, ih hxs⟩
      intro b hb
      rcases mem_insertByDateDesc.mp hb with rfl | hb
      · exact le_of_lt (lt_of_not_le hle)
      · exact hx b hb

lemma mem_sortByDateDesc {a : Question} {l : List Question} :
    a ∈ sortByDateDesc l ↔ a ∈ l := by
  induction l with
  | nil => simp [sortByDateDesc]
  | cons x xs ih => simp [sortByDateDesc, mem_insertByDateDesc, ih]

lemma pairwise_sortByDateDesc (l : List Question) :
    (sortByDateDesc l).Pairwise (fun a b => b.pub_date ≤ a.pub_date) := by
  induction l with
  | nil => simp [sortByDateDesc]
  | cons x xs ih => exact pairwise_insertByDateDesc ih

/-- C4: for every database state and current time, the `index` view's
question list contains only questions published at or before the current
time, has at most 5 entries, and is ordered by `pub_date` descending. -/
theorem index_filter_limit_order (db : DB) (now : Int) :
    (∀ q ∈ index db now, q.pub_date ≤ now) ∧
    (index db now).length ≤ 5 ∧
    (index db now).Pairwise (fun a b => b.pub_date ≤ a.pub_date) := by
  refine ⟨?_, ?_, ?_⟩
  · intro q hq
    have h1 : q ∈ sortByDateDesc (db.questions.filter (fun q => q.pub_date ≤ now)) :=
      (List.take_sublist 5 _).mem hq
    have h2 := List.mem_filter.mp (mem_sortByDateDesc.mp h1)
    exact of_decide_eq_true h2.2
  · exact List.length_take_le 5 _
  · exact List.Pairwise.sublist (List.take_sublist 5 _) (pairwise_sortByDateDesc _)

/-- C5: `was_published_recently` holds exactly when the publication
timestamp lies in the half-open window `(now − 1 day, now]`; in
particular it is false for every future timestamp `now + 1 + d`, false at
exactly `now − 1 day` (86400 s), and true at `now − 23:59:59`
(86399 s). -/
theorem was_published_recently_characterisation :
    ∀ (q : Question) (now : Int) (i : Nat) (t : String) (d : Nat),
      (was_published_recently q now = true ↔
        now - 86400 < q.pub_date ∧ q.pub_date ≤ now) ∧
      was_published_recently ⟨i, t, now + 1 + d⟩ now = false ∧
      was_published_recently ⟨i, t, now - 86400⟩ now = false ∧
      was_published_recently ⟨i, t, now - 86399⟩ now = true := by
  intro q now i t d
  refine ⟨?_, ?_, ?_, ?_⟩
  · simp [was_published_recently]
  · simp only [was_published_recently, Bool.and_eq_false_iff, decide_eq_false_iff_not, not_le,
      not_lt]
    right
    omega
  · simp only [was_published_recently, Bool.and_eq_false_iff, decide_eq_false_iff_not, not_lt]
    left
    omega
  · simp only [was_published_recently, Bool.and_eq_true, decide_eq_true_eq]
    omega

/-- C3: whenever no question with the given identifier exists, or the
question's publication timestamp is strictly in the future, `detail`,
`results` and `vote` all answer `notFound` (HTTP 404). -/
theorem lookup_not_found_of_missing_or_future (db : DB) (now : Int) (question_id : Nat)
    (h : getQuestion db question_id = none ∨
      ∃ q, getQuestion db question_id = some q ∧ now < q.pub_date) :
    detail db now question_id = .notFound ∧
    results db now question_id = .notFound ∧
    ∀ post_choice, (vote db now question_id post_choice).1 = .notFound := by
  rcases h with h | ⟨q, hq, hfut⟩
  · exact ⟨by simp [detail, h], by simp [results, h], fun post => by simp [vote, h]⟩
  · exact ⟨by simp [detail, hq, hfut], by simp [results, hq, hfut],
      fun post => by simp [vote, hq, hfut]⟩

/-- C3 witness. -/
theorem lookup_not_found_of_missing_or_future_witness :
    detail ⟨[], []⟩ 0 1 = .notFound ∧ results ⟨[], []⟩ 0 1 = .notFound ∧
      ∀ post_choice, (vote ⟨[], []⟩ 0 1 post_choice).1 = .notFound :=
  lookup_not_found_of_missing_or_future ⟨[], []⟩ 0 1 (Or.inl rfl)

/-- C7: `detail`, `results` and `vote` share one lookup and visibility
rule: on any database state, current time, question identifier and form
submission, one of them answers `notFound` exactly when the others do. -/
theorem shared_lookup_rule (db : DB) (now : Int) (question_id : Nat)
    (post_choice : Option String) :
    (detail db now question_id = .notFound ↔ results db now question_id = .notFound) ∧
    (detail db now question_id = .notFound ↔
      (vote db now question_id post_choice).1 = .notFound) := by
  cases hq : getQuestion db question_id with
  | none => simp [detail, results, vote, hq]
  | some q =>
    by_cases hfut : q.pub_date > now
    · simp [detail, results, vote, hq, hfut]
    · cases post_choice with
      | none => simp [detail, results, vote, hq, hfut]
      | some s =>
        cases hp : parseIntField s with
        | none => simp [detail, results, vote, hq, hfut, hp]
        | some cid =>
          cases hfc : findChoice db q cid with
          | none => simp [detail, results, vote, hq, hfut, hp, hfc]
          | some sc => simp [detail, results, vote, hq, hfut, hp, hfc]

/-- C10: the vote recovery path catches only a missing `choice` field and
a non-resolving numeric identifier; a present but non-numeric `choice`
value (here `"abc"`) escapes the handler as an unhandled coercion error
and surfaces as a generic 500 server error, while the absent field and
the unknown numeric id `"999"` re-render the inline error instead. -/
theorem vote_non_numeric_choice_server_error :
    vote ⟨[⟨1, "Q", 0⟩], [⟨1, 1, "C", 0⟩]⟩ 0 1 (some "abc") =
      (.serverError, ⟨[⟨1, "Q", 0⟩], [⟨1, 1, "C", 0⟩]⟩) ∧
    status .serverError = 500 ∧
    vote ⟨[⟨1, "Q", 0⟩], [⟨1, 1, "C", 0⟩]⟩ 0 1 none =
      (.render "polls/detail.html" ⟨1, "Q", 0⟩ (some noChoiceMessage),
        ⟨[⟨1, "Q", 0⟩], [⟨1, 1, "C", 0⟩]⟩) ∧
    vote ⟨[⟨1, "Q", 0⟩], [⟨1, 1, "C", 0⟩]⟩ 0 1 (some "999") =
      (.render "polls/detail.html" ⟨1, "Q", 0⟩ (some noChoiceMessage),
        ⟨[⟨1, "Q", 0⟩], [⟨1, 1, "C", 0⟩]⟩) := by
  decide

/-- C9: the vote success branch performs two storage round trips — the
read `question.choice_set.get(...)` and the write
`selected_choice.save()` — and computes `votes + 1` in application
memory between them.  When two concurrent requests both read the same
snapshot (votes = 0) before either writes, each saves `votes = 1` and
the second write overwrites the first: the stored count ends at 1,
whereas two serialized votes end at 2.  The increment is therefore not
atomic at the storage layer. -/
theorem vote_increment_lost_update :
    findChoice ⟨[⟨1, "Q", 0⟩], [⟨1, 1, "C", 0⟩]⟩ ⟨1, "Q", 0⟩ 1 = some ⟨1, 1, "C", 0⟩ ∧
    (saveChoice (saveChoice ⟨[⟨1, "Q", 0⟩], [⟨1, 1, "C", 0⟩]⟩
        ⟨1, 1, "C", 0 + 1⟩) ⟨1, 1, "C", 0 + 1⟩).choices = [⟨1, 1, "C", 1⟩] ∧
    ((vote (vote ⟨[⟨1, "Q", 0⟩], [⟨1, 1, "C", 0⟩]⟩ 0 1 (some "1")).2
        0 1 (some "1")).2).choices = [⟨1, 1, "C", 2⟩] := by
  decide

lemma findChoice_spec {db : DB} {q : Question} {cid : Nat} {sc : Choice}
    (h : findChoice db q cid = some sc) :
    sc ∈ db.choices ∧ sc.question_id = q.id ∧ sc.id = cid := by
  have hm := List.mem_of_find?_eq_some h
  have hp := List.find?_some h
  simp only [Bool.and_eq_true, beq_iff_eq] at hp
  exact ⟨hm, hp.1, hp.2⟩

lemma findChoice_isSome {db : DB} {q : Question} {cid : Nat} {ch : Choice}
    (hm : ch ∈ db.choices) (h1 : ch.question_id = q.id) (h2 : ch.id = cid) :
    ∃ sc, findChoice db q cid = some sc := by
  have h : (db.choices.find? (fun c => c.question_id == q.id && c.id == cid)).isSome := by
    rw [List.find?_isSome]
    exact ⟨ch, hm, by simp [h1, h2]⟩
  exact Option.isSome_iff_exists.mp h

lemma vote_success_eq (db : DB) (now : Int) (question_id : Nat) (q : Question)
    (s : String) (cid : Nat) (sc : Choice)
    (hq : getQuestion db question_id = some q) (hvis : ¬ q.pub_date > now)
    (hs : parseIntField s = some cid) (hfc : findChoice db q cid = some sc) :
    vote db now question_id (some s) =
      (.redirectToResults q.id,
        ⟨db.questions,
          db.choices.map
            (fun c => if c.id == sc.id then { sc with votes := sc.votes + 1 } else c)⟩) := by
  simp only [vote, hq, if_neg hvis, hs, hfc, saveChoice]

lemma find?_map_comm {α : Type} (l : List α) (p pf : α → Bool) (f : α → α)
    (h : ∀ c ∈ l, p (f c) = pf c) : (l.map f).find? p = (l.find? pf).map f := by
  induction l with
  | nil => rfl
  | cons x xs ih =>
    simp only [List.map_cons, List.find?_cons]
    rw [h x (List.mem_cons_self x xs)]
    cases hpf : pf x
    · simp only [hpf]
      exact ih (fun c hc => h c (List.mem_cons_of_mem _ hc))
    · simp [hpf]

/-- C1: voting on a visible question with the identifier of one of its
own choices in the `choice` form field redirects to the results page of
that question, increments exactly that choice's vote count by 1, leaves
every other choice row unchanged, and leaves the questions table
unchanged. -/
theorem vote_valid_choice (db : DB) (now : Int) (question_id : Nat) (q : Question)
    (ch : Choice) (s : String)
    (hnd : (db.choices.map Choice.id).Nodup)
    (hq : getQuestion db question_id = some q)
    (hvis : q.pub_date ≤ now)
    (hm : ch ∈ db.choices) (hcq : ch.question_id = q.id)
    (hs : parseIntField s = some ch.id) :
    (vote db now question_id (some s)).1 = .redirectToResults question_id ∧
    List.Forall₂
      (fun c c' => if c.id = ch.id then c' = { c with votes := c.votes + 1 } else c' = c)
      db.choices (vote db now question_id (some s)).2.choices ∧
    (vote db now question_id (some s)).2.questions = db.questions := by
  obtain ⟨sc, hfc⟩ := findChoice_isSome hm hcq rfl
  obtain ⟨hscm, hscq, hscid⟩ := findChoice_spec hfc
  have hqid : q.id = question_id := by
    have := List.find?_some hq
    simpa using this
  have hveq := vote_success_eq db now question_id q s ch.id sc hq (not_lt.mpr hvis) hs hfc
  rw [hveq]
  refine ⟨by rw [hqid], ?_, rfl⟩
  rw [List.forall₂_map_right_iff, List.forall₂_same]
  intro c hc
  by_cases hid : c.id = ch.id
  · have hceq : c = sc := List.inj_on_of_nodup_map hnd hc hscm (by rw [hid, hscid])
    simp only [if_pos hid]
    subst hceq
    simp [hscid, hid]
  · have hne : (c.id == sc.id) = false := by
      simp [hscid, hid]
    simp [hid, hne]

/-- C1 witness. -/
theorem vote_valid_choice_witness :
    (vote ⟨[⟨1, "Q", 0⟩], [⟨1, 1, "A", 0⟩, ⟨2, 1, "B", 7⟩]⟩ 0 1 (some "1")).1 =
      Response.redirectToResults 1 :=
  (vote_valid_choice ⟨[⟨1, "Q", 0⟩], [⟨1, 1, "A", 0⟩, ⟨2, 1, "B", 7⟩]⟩ 0 1 ⟨1, "Q", 0⟩
    ⟨1, 1, "A", 0⟩ "1" (by decide) rfl (by decide) (by decide) rfl (by decide)).1

/-- C2: voting on a visible question with no `choice` field, or with a
numeric identifier that resolves to no choice of that question (also
when it belongs to a different question's choice), leaves the database
unchanged and re-renders the detail template for that question with the
exact inline error text, at HTTP status 200. -/
theorem vote_invalid_choice (db : DB) (now : Int) (question_id : Nat) (q : Question)
    (post_choice : Option String)
    (hq : getQuestion db question_id = some q)
    (hvis : q.pub_date ≤ now)
    (h : post_choice = none ∨
      ∃ s cid, post_choice = some s ∧ parseIntField s = some cid ∧
        findChoice db q cid = none) :
    vote db now question_id post_choice =
      (.render "polls/detail.html" q (some noChoiceMessage), db) ∧
    noChoiceMessage = "You didn\x27t select a choice." ∧
    status (vote db now question_id post_choice).1 = 200 := by
  have hnf : ¬ q.pub_date > now := not_lt.mpr hvis
  rcases h with rfl | ⟨s, cid, rfl, hs, hfc⟩
  · refine ⟨?_, rfl, ?_⟩
    · simp only [vote, hq, if_neg hnf]
    · simp only [vote, hq, if_neg hnf, status]
  · refine ⟨?_, rfl, ?_⟩
    · simp only [vote, hq, if_neg hnf, hs, hfc]
    · simp only [vote, hq, if_neg hnf, hs, hfc, status]

/-- C2 witness: a choice id that belongs to a different question. -/
theorem vote_invalid_choice_witness :
    vote ⟨[⟨1, "Q1", 0⟩, ⟨2, "Q2", 0⟩], [⟨1, 1, "A", 3⟩, ⟨2, 2, "B", 4⟩]⟩ 0 1 (some "2") =
      (.render "polls/detail.html" ⟨1, "Q1", 0⟩ (some noChoiceMessage),
        ⟨[⟨1, "Q1", 0⟩, ⟨2, "Q2", 0⟩], [⟨1, 1, "A", 3⟩, ⟨2, 2, "B", 4⟩]⟩) :=
  (vote_invalid_choice ⟨[⟨1, "Q1", 0⟩, ⟨2, "Q2", 0⟩], [⟨1, 1, "A", 3⟩, ⟨2, 2, "B", 4⟩]⟩
    0 1 ⟨1, "Q1", 0⟩ (some "2") rfl (by decide)
    (Or.inr ⟨"2", 2, rfl, by decide, rfl⟩)).1

lemma forall₂_votes_refl (l : List Choice) :
    List.Forall₂ (fun c c' => c'.id = c.id ∧ c.votes ≤ c'.votes ∧ c'.votes ≤ c.votes + 1)
      l l :=
  List.forall₂_same.mpr (fun _ _ => ⟨rfl, le_refl _, Nat.le_succ _⟩)

/-- C6: on any request, the `vote` handler (the only handler that writes:
`index`, `detail` and `results` take the database as a read-only argument
and return no updated state) leaves the questions table unchanged, maps
each choice row to a row with the same identifier whose vote count (a
`Nat`, hence non-negative) never decreases and grows by at most 1, and
changes the database at all only in the success branch, whose response is
the redirect to the results page. -/
theorem vote_count_monotone (db : DB) (now : Int) (question_id : Nat)
    (post_choice : Option String)
    (hnd : (db.choices.map Choice.id).Nodup) :
    (vote db now question_id post_choice).2.questions = db.questions ∧
    List.Forall₂ (fun c c' => c'.id = c.id ∧ c.votes ≤ c'.votes ∧ c'.votes ≤ c.votes + 1)
      db.choices (vote db now question_id post_choice).2.choices ∧
    ((vote db now question_id post_choice).2 ≠ db →
      ∃ rid, (vote db now question_id post_choice).1 = .redirectToResults rid) := by
  cases hq : getQuestion db question_id with
  | none =>
    have hv : vote db now question_id post_choice = (.notFound, db) := by
      simp only [vote, hq]
    rw [hv]
    exact ⟨rfl, forall₂_votes_refl db.choices, fun hne => absurd rfl hne⟩
  | some q =>
    by_cases hfut : q.pub_date > now
    · have hv : vote db now question_id post_choice = (.notFound, db) := by
        simp only [vote, hq, if_pos hfut]
      rw [hv]
      exact ⟨rfl, forall₂_votes_refl db.choices, fun hne => absurd rfl hne⟩
    · cases post_choice with
      | none =>
        have hv : vote db now question_id none =
            (.render "polls/detail.html" q (some noChoiceMessage), db) := by
          simp only [vote, hq, if_neg hfut]
        rw [hv]
        exact ⟨rfl, forall₂_votes_refl db.choices, fun hne => absurd rfl hne⟩
      | some s =>
        cases hp : parseIntField s with
        | none =>
          have hv : vote db now question_id (some s) = (.serverError, db) := by
            simp only [vote, hq, if_neg hfut, hp]
          rw [hv]
          exact ⟨rfl, forall₂_votes_refl db.choices, fun hne => absurd rfl hne⟩
        | some cid =>
          cases hfc : findChoice db q cid with
          | none =>
            have hv : vote db now question_id (some s) =
                (.render "polls/detail.html" q (some noChoiceMessage), db) := by
              simp only [vote, hq, if_neg hfut, hp, hfc]
            rw [hv]
            exact ⟨rfl, forall₂_votes_refl db.choices, fun hne => absurd rfl hne⟩
          | some sc =>
            obtain ⟨hscm, hscq, hscid⟩ := findChoice_spec hfc
            have hveq := vote_success_eq db now question_id q s cid sc hq hfut hp hfc
            rw [hveq]
            refine ⟨rfl, ?_, fun _ => ⟨q.id, rfl⟩⟩
            rw [List.forall₂_map_right_iff, List.forall₂_same]
            intro c hc
            by_cases hid : c.id = sc.id
            · have hceq : c = sc := List.inj_on_of_nodup_map hnd hc hscm hid
              subst hceq
              simp
            · simp [hid]

/-- C6 witness. -/
theorem vote_count_monotone_witness :
    (vote ⟨[⟨1, "Q", 0⟩], [⟨1, 1, "A", 0⟩]⟩ 0 1 (some "1")).2.questions = [⟨1, "Q", 0⟩] :=
  (vote_count_monotone ⟨[⟨1, "Q", 0⟩], [⟨1, 1, "A", 0⟩]⟩ 0 1 (some "1") (by decide)).1

/-- C8: voting is not idempotent: submitting the same valid vote twice in
sequence redirects both times and leaves the selected choice's vote
count exactly 2 above its initial value, every other choice row
unchanged. -/
theorem vote_not_idempotent (db : DB) (now : Int) (question_id : Nat) (q : Question)
    (ch : Choice) (s : String)
    (hnd : (db.choices.map Choice.id).Nodup)
    (hq : getQuestion db question_id = some q)
    (hvis : q.pub_date ≤ now)
    (hm : ch ∈ db.choices) (hcq : ch.question_id = q.id)
    (hs : parseIntField s = some ch.id) :
    (vote db now question_id (some s)).1 = .redirectToResults question_id ∧
    (vote (vote db now question_id (some s)).2 now question_id (some s)).1 =
      .redirectToResults question_id ∧
    List.Forall₂ (fun c c' => if c.id = ch.id then c'.votes = c.votes + 2 else c' = c)
      db.choices
      (vote (vote db now question_id (some s)).2 now question_id (some s)).2.choices := by
  obtain ⟨sc, hfc⟩ := findChoice_isSome hm hcq rfl
  obtain ⟨hscm, hscq, hscid⟩ := findChoice_spec hfc
  have hqid : q.id = question_id := by
    have := List.find?_some hq
    simpa using this
  have hnf : ¬ q.pub_date > now := not_lt.mpr hvis
  have hveq1 := vote_success_eq db now question_id q s ch.id sc hq hnf hs hfc
  set f : Choice → Choice :=
    fun c => if c.id == sc.id then { sc with votes := sc.votes + 1 } else c with hf
  have hdb1 : (vote db now question_id (some s)).2 = ⟨db.questions, db.choices.map f⟩ := by
    rw [hveq1]
  have hq2 : getQuestion (⟨db.questions, db.choices.map f⟩ : DB) question_id = some q := hq
  have hfc' : db.choices.find? (fun c => c.question_id == q.id && c.id == ch.id) = some sc :=
    hfc
  have hpred : ∀ c ∈ db.choices,
      ((f c).question_id == q.id && (f c).id == ch.id) =
        (c.question_id == q.id && c.id == ch.id) := by
    intro c hc
    by_cases hid : c.id = sc.id
    · have hceq : c = sc := List.inj_on_of_nodup_map hnd hc hscm hid
      subst hceq
      simp [hf]
    · simp [hf, hid]
  have hfc2 : findChoice (⟨db.questions, db.choices.map f⟩ : DB) q ch.id = some (f sc) := by
    show (db.choices.map f).find? (fun c => c.question_id == q.id && c.id == ch.id) = _
    rw [find?_map_comm db.choices _ _ f hpred, hfc']
    rfl
  have hveq2 := vote_success_eq ⟨db.questions, db.choices.map f⟩ now question_id q s ch.id
    (f sc) hq2 hnf hs hfc2
  refine ⟨?_, ?_, ?_⟩
  · rw [hveq1, hqid]
  · rw [hdb1, hveq2, hqid]
  · rw [hdb1, hveq2]
    show List.Forall₂ _ db.choices ((db.choices.map f).map _)
    rw [List.map_map, List.forall₂_map_right_iff, List.forall₂_same]
    intro c hc
    by_cases hid : c.id = ch.id
    · have hceq : c = sc := List.inj_on_of_nodup_map hnd hc hscm (hid.trans hscid.symm)
      subst hceq
      simp [hf, hid]
    · have h2 : ¬ c.id = sc.id := by
        rw [hscid]
        exact hid
      simp [hf, hid, h2]

/-- C8 witness. -/
theorem vote_not_idempotent_witness :
    (vote (vote ⟨[⟨1, "Q", 0⟩], [⟨1, 1, "A", 0⟩]⟩ 0 1 (some "1")).2 0 1 (some "1")).1 =
      Response.redirectToResults 1 :=
  (vote_not_idempotent ⟨[⟨1, "Q", 0⟩], [⟨1, 1, "A", 0⟩]⟩ 0 1 ⟨1, "Q", 0⟩ ⟨1, 1, "A", 0⟩ "1"
    (by decide) rfl (by decide) (by decide) rfl (by decide)).2.1
